import Mathlib

/-!
# Verification of the libcloud transport core (`libcloud/common/base.py`)

A shallow embedding of the request/response pipeline of the libcloud
`Connection` / `Response` hierarchy, with theorems settling the frozen
claims about it.  Dictionaries are association lists, machine state
(the per-call context, lazy caches, call counters) is passed explicitly,
and fallible Python code is rendered with `Except`.
-/

/-- Association-list rendering of a Python `dict` with string keys/values. -/
abbrev Dict := List (String × String)

/-- Python `str.strip()`: drop leading and trailing whitespace. -/
def pyStrip (s : String) : String :=
  ⟨((s.data.dropWhile Char.isWhitespace).reverse.dropWhile Char.isWhitespace).reverse⟩

/-- Python `str.lower()` (ASCII range, which is all that header names use). -/
def pyLower (s : String) : String :=
  ⟨s.data.map (fun c => if 'A' ≤ c && c ≤ 'Z' then Char.ofNat (c.toNat + 32) else c)⟩

/-- Modelled from the spec: `lowercase_keys` (from `libcloud.utils.misc`,
not under `src/`) normalizes header names to lower case. -/
def lowercase_keys (d : Dict) : Dict :=
  d.map (fun kv => (pyLower kv.1, kv.2))

/-- Modelled from the spec: the error-mapping collaborator
`exception_from_message` (from `libcloud.common.exceptions`, not under
`src/`) "maps a status code + message + headers into a provider-appropriate
structured exception". -/
structure DomainError where
  code : Nat
  message : String
  headers : Dict
  deriving Repr, DecidableEq

/-- Modelled from the spec: constructor of the structured exception produced
by the error-mapping collaborator. -/
def exception_from_message (code : Nat) (message : String) (headers : Dict) :
    DomainError :=
  { code := code, message := message, headers := headers }

/-- The transport-level response handed to `Response.__init__`
(status, headers, reason, body text; `text` is `None`-able). -/
structure HttpLibResponse where
  headers : Dict
  reason : String
  status_code : Nat
  text : Option String
  deriving Repr, DecidableEq

/-- The fully constructed buffered `Response` (fields set by
`Response.__init__` on the success path). -/
structure ResponseData where
  status : Nat
  headers : Dict
  error : String
  body : String
  object : String
  deriving Repr, DecidableEq

/-- `Response.success`: membership of the status code in
`[requests.codes.ok, requests.codes.created, httplib.OK, httplib.CREATED,
httplib.ACCEPTED]`, i.e. `[200, 201, 200, 201, 202]`. -/
def Response.success (status : Nat) : Bool :=
  [200, 201, 200, 201, 202].contains status

/-- `Response.parse_body` (base class): return the body string. -/
def Response.parse_body (body : String) : String := body

/-- `Response.parse_error` (base class): return the body string. -/
def Response.parse_error (body : String) : String := body

/-- The body captured by `Response.__init__`:
`response.text.strip()` when `text` is a string, else `""`. -/
def Response.bodyText (r : HttpLibResponse) : String :=
  match r.text with
  | some t => pyStrip t
  | none => ""

/-- `Response.__init__`: capture headers (lower-cased), reason, status and
stripped body; if `success()` fails, raise the structured error built by
`exception_from_message` from the status, `parse_error()` and the headers;
otherwise populate `object` via `parse_body()` and return the Response. -/
def Response.init (r : HttpLibResponse) : Except DomainError ResponseData :=
  let headers := lowercase_keys r.headers
  let error := r.reason
  let status := r.status_code
  let body := Response.bodyText r
  if Response.success status then
    .ok { status := status, headers := headers, error := error, body := body,
          object := Response.parse_body body }
  else
    .error (exception_from_message status (Response.parse_error body) headers)

/-- A Python-level outcome of calling a format parser: a value, or an
exception which either is or is not a `ValueError`. -/
inductive PyResult (V : Type) where
  | ok (v : V)
  | exc (isValueError : Bool)
  deriving Repr, DecidableEq

/-- `MalformedResponseError` as raised by the structured parse methods. -/
structure MalformedResponseError where
  message : String
  body : String
  deriving Repr, DecidableEq

/-- `JsonResponse.parse_body`, with the format parser (`json.loads`)
abstract.  Returns the parsed result together with a flag recording whether
the format parser was invoked. -/
def JsonResponse.parse_body {V : Type} (loads : String → PyResult V)
    (parse_zero_length_body : Bool) (body : String) :
    Except MalformedResponseError (Sum String V) × Bool :=
  if body.length == 0 && !parse_zero_length_body then
    (.ok (.inl body), false)
  else
    match loads body with
    | .ok v => (.ok (.inr v), true)
    | .exc _ => (.error ⟨"Failed to parse JSON", body⟩, true)

/-- `XmlResponse.parse_body`, with the format parser (`ET.XML`) abstract in
both its string-input and bytes-input forms (the code retries with the
UTF-8-encoded body on `ValueError`).  Returns the parsed result together
with a flag recording whether the format parser was invoked. -/
def XmlResponse.parse_body {V : Type} (etXML etXMLBytes : String → PyResult V)
    (parse_zero_length_body : Bool) (body : String) :
    Except MalformedResponseError (Sum String V) × Bool :=
  if body.length == 0 && !parse_zero_length_body then
    (.ok (.inl body), false)
  else
    match etXML body with
    | .ok v => (.ok (.inr v), true)
    | .exc true =>
        match etXMLBytes body with
        | .ok v => (.ok (.inr v), true)
        | .exc _ => (.error ⟨"Failed to parse XML", body⟩, true)
    | .exc false => (.error ⟨"Failed to parse XML", body⟩, true)

/-- Python `str.lstrip("/")`: drop leading `'/'` characters. -/
def lstripSlash (s : String) : String :=
  ⟨s.data.dropWhile (· == '/')⟩

/-- Python `str.rstrip("/")`: drop trailing `'/'` characters. -/
def rstripSlash (s : String) : String :=
  ⟨s.data.rdropWhile (· == '/')⟩

/-- Python `str.startswith("/")`. -/
def startsWithSlash (s : String) : Bool :=
  match s.data with
  | [] => false
  | c :: _ => c == '/'

/-- Whether a string contains two adjacent `'/'` characters. -/
def hasDoubleSlash : List Char → Bool
  | [] => false
  | [_] => false
  | a :: b :: rest => (a == '/' && b == '/') || hasDoubleSlash (b :: rest)

/-- Split a string at `'/'` characters (auxiliary accumulator form). -/
def splitSlashAux : List Char → List Char → List String
  | [], acc => [⟨acc.reverse⟩]
  | c :: rest, acc =>
      if c = '/' then ⟨acc.reverse⟩ :: splitSlashAux rest []
      else splitSlashAux rest (c :: acc)

/-- Split a string at `'/'` characters. -/
def splitSlash (s : String) : List String :=
  splitSlashAux s.data []

/-- A "plain" path reference in the sense of RFC 3986 reference
resolution: no scheme/query/fragment delimiter characters and no `.` or
`..` segments, so `urlparse.urljoin` resolves it by pure merging. -/
def plainRef (s : String) : Bool :=
  s.data.all (fun c => c != ':' && c != '?' && c != '#') &&
  (splitSlash s).all (fun seg => seg != "." && seg != "..")

/-- Modelled from the semantics of Python's `urlparse.urljoin`, restricted
to the inputs `morph_action_hook` feeds it: a base that is a plain relative
path ending in `"/"` and a plain relative reference with no leading slash
(see `plainRef`).  On this class RFC 3986 resolution merges the reference
onto the base path up to its final slash, i.e. plain concatenation (the
empty reference returns the base, which the concatenation also does). -/
def urljoin_plain (base ref : String) : String :=
  base ++ ref

/-- `Connection.morph_action_hook`: with `ALLOW_PATH_DOUBLE_SLASHES`
enabled, return `self.request_path + action` verbatim; otherwise join the
slash-stripped request path prefix and the slash-stripped action with
`urljoin` and guarantee a leading slash. -/
def Connection.morph_action_hook (allow_path_double_slashes : Bool)
    (request_path action : String) : String :=
  if allow_path_double_slashes then
    request_path ++ action
  else
    let url := urljoin_plain (rstripSlash (lstripSlash request_path) ++ "/")
      (lstripSlash action)
    if startsWithSlash url then url else "/" ++ url

/-- A nibble rendered as an upper-case hex digit, as `urllib.parse.quote`
renders percent-escapes. -/
def hexDigit (n : Nat) : Char :=
  "0123456789ABCDEF".data.getD n '0'

/-- Percent-encoding of one byte value: `%XX`. -/
def percentEncodeByte (b : Nat) : List Char :=
  ['%', hexDigit (b / 16), hexDigit (b % 16)]

/-- UTF-8 byte values of one character (RFC 3629). -/
def utf8Bytes (c : Char) : List Nat :=
  let n := c.toNat
  if n < 128 then [n]
  else if n < 2048 then [192 + n / 64, 128 + n % 64]
  else if n < 65536 then [224 + n / 4096, 128 + n / 64 % 64, 128 + n % 64]
  else [240 + n / 262144, 128 + n / 4096 % 64, 128 + n / 64 % 64, 128 + n % 64]

/-- The characters `urllib.parse.quote_plus` leaves unencoded with the
default empty `safe` set: ASCII alphanumerics and `_.-~`. -/
def quoteSafe (c : Char) : Bool :=
  c.isAlphanum || c == '_' || c == '.' || c == '-' || c == '~'

/-- What `quote_plus` emits for one input character. -/
def quotePlusChars (c : Char) : List Char :=
  if quoteSafe c then [c]
  else if c == ' ' then ['+']
  else ((utf8Bytes c).map percentEncodeByte).flatten

/-- Modelled from the semantics of Python's `urllib.parse.quote_plus`:
safe characters pass through, a space becomes `+`, everything else is
percent-encoded byte-wise. -/
def quote_plus (s : String) : String :=
  ⟨(s.data.map quotePlusChars).flatten⟩

/-- Python `sep.join(strings)`. -/
def pyJoin (sep : String) : List String → String
  | [] => ""
  | [x] => x
  | x :: y :: ys => x ++ sep ++ pyJoin sep (y :: ys)

/-- Modelled from the semantics of Python's `urlencode(params, doseq=True)`
on a mapping with string keys and values: quoted `key=value` pairs joined
with `&`. -/
def urlencode (params : Dict) : String :=
  pyJoin "&" (params.map (fun kv => quote_plus kv.1 ++ "=" ++ quote_plus kv.2))

/-- Number of `'?'` occurrences in a string. -/
def countQ (s : String) : Nat := s.data.count '?'

/-- Python `"?" in action`. -/
def containsQmark (s : String) : Bool := s.data.contains '?'

/-- The URL construction in `Connection.request`: with nonempty `params`,
join the action and the encoded query with `&` if the action already
contains `?`, else with `?`; with empty `params` the URL is the action. -/
def Connection.buildUrl (action : String) (params : Dict) : String :=
  if !params.isEmpty then
    if containsQmark action then action ++ "&" ++ urlencode params
    else action ++ "?" ++ urlencode params
  else action

/-- C2: buffered `Response` construction classifies exactly 200/201/202 as
success and yields a fully populated `Response`; any other status makes
construction itself fail with the mapped structured error carrying the
original status code, the parsed error body and the (lower-cased) response
headers, so the caller never receives a half-populated `Response`. -/
theorem response_construction_classifies (r : HttpLibResponse) :
    (r.status_code = 200 ∨ r.status_code = 201 ∨ r.status_code = 202 →
      Response.init r = .ok
        { status := r.status_code, headers := lowercase_keys r.headers,
          error := r.reason, body := Response.bodyText r,
          object := Response.parse_body (Response.bodyText r) }) ∧
    (r.status_code ≠ 200 → r.status_code ≠ 201 → r.status_code ≠ 202 →
      Response.init r = .error
        { code := r.status_code,
          message := Response.parse_error (Response.bodyText r),
          headers := lowercase_keys r.headers }) := by
  constructor
  · intro h
    have hs : Response.success r.status_code = true := by
      rcases h with h | h | h <;> simp [Response.success, h]
    simp [Response.init, hs]
  · intro h1 h2 h3
    have hs : Response.success r.status_code = false := by
      simp [Response.success]
      omega
    simp [Response.init, hs, exception_from_message]

/-- Witness for `response_construction_classifies`: a 201 response is
constructed successfully, a 404 response raises the mapped error. -/
theorem response_construction_classifies_witness :
    (Response.init ⟨[("X-A", "b")], "Created", 201, some " hi "⟩ = .ok
        { status := 201, headers := [("x-a", "b")], error := "Created",
          body := "hi", object := "hi" }) ∧
    (Response.init ⟨[("X-A", "b")], "Not Found", 404, some " gone "⟩ = .error
        { code := 404, message := "gone", headers := [("x-a", "b")] }) := by
  refine ⟨?_, ?_⟩
  · have h := (response_construction_classifies
      ⟨[("X-A", "b")], "Created", 201, some " hi "⟩).1 (Or.inr (Or.inl rfl))
    rw [h]; rfl
  · have h := (response_construction_classifies
      ⟨[("X-A", "b")], "Not Found", 404, some " gone "⟩).2
      (by decide) (by decide) (by decide)
    rw [h]; rfl

/-- C6: for the structured-format responses (JSON and XML), a zero-length
body with `parse_zero_length_body = false` yields the unparsed (empty)
body without invoking the format parser; with
`parse_zero_length_body = true` the format parser is invoked on the
empty input. -/
theorem zero_length_body_policy {V : Type} (loads etXML etXMLBytes : String → PyResult V)
    (body : String) (hb : body.length = 0) :
    (JsonResponse.parse_body loads false body = (.ok (.inl body), false)) ∧
    ((JsonResponse.parse_body loads true body).2 = true) ∧
    (XmlResponse.parse_body etXML etXMLBytes false body = (.ok (.inl body), false)) ∧
    ((XmlResponse.parse_body etXML etXMLBytes true body).2 = true) := by
  refine ⟨?_, ?_, ?_, ?_⟩
  · simp [JsonResponse.parse_body, hb]
  · simp only [JsonResponse.parse_body, hb]
    cases loads body <;> simp
  · simp [XmlResponse.parse_body, hb]
  · simp only [XmlResponse.parse_body, hb]
    cases h : etXML body with
    | ok v => simp
    | exc b =>
        cases b
        · simp
        · simp only []
          cases etXMLBytes body <;> simp

/-- The first character surviving `lstrip("/")` is not a slash. -/
lemma lstripSlash_head_ne (s : String) (c : Char) (t : List Char)
    (h : (lstripSlash s).data = c :: t) : c ≠ '/' := by
  have h' : (s.data.dropWhile (· == '/')).head? = some c := by
    simpa [lstripSlash] using congrArg List.head? h
  have := List.head?_dropWhile_not (· == '/') s.data
  intro hc
  rw [h'] at this
  simp [hc] at this

/-- `rstrip("/")` keeps the original head character when nonempty. -/
lemma rstripSlash_head_ne (s : String) (c : Char) (t : List Char)
    (h : (rstripSlash (lstripSlash s)).data = c :: t) : c ≠ '/' := by
  have hpre : ((lstripSlash s).data.rdropWhile (· == '/')) <+: (lstripSlash s).data :=
    List.rdropWhile_prefix _ _
  have h' : (lstripSlash s).data.rdropWhile (· == '/') = c :: t := h
  rcases hpre with ⟨r, hr⟩
  rw [h'] at hr
  exact lstripSlash_head_ne s c (t ++ r) (by simp [← hr])

/-- String append is associative (via the underlying character lists). -/
lemma string_append_assoc (a b c : String) : a ++ b ++ c = a ++ (b ++ c) := by
  apply String.ext
  simp [String.data_append, List.append_assoc]

/-- C3 counterexample: with the double-slash flag disabled, a doubled
slash internal to a well-formed action survives normalization — the
result `/a//b` still contains `//`, contradicting "no internal doubled
slashes". -/
theorem morph_action_hook_counterexample :
    Connection.morph_action_hook false "" "a//b" = "/a//b" ∧
    hasDoubleSlash (Connection.morph_action_hook false "" "a//b").data = true ∧
    plainRef "" = true ∧ plainRef "a//b" = true := by
  decide

/-- C3 (amended): with the flag enabled `morph_action_hook` returns
`request_path ++ action` verbatim; with it disabled it returns a single
leading slash, then the prefix stripped of outer slashes, then one slash,
then the action stripped of leading slashes — doubled slashes are
collapsed at the leading edge and at the prefix/action boundary only,
while doubled slashes internal to the action are preserved. -/
theorem morph_action_hook_normalizes (request_path action : String)
    (_hX : plainRef request_path = true) (_hP : plainRef action = true) :
    Connection.morph_action_hook true request_path action =
      request_path ++ action ∧
    Connection.morph_action_hook false request_path action =
      (if rstripSlash (lstripSlash request_path) = "" then
        "/" ++ lstripSlash action
      else
        "/" ++ rstripSlash (lstripSlash request_path) ++ "/" ++ lstripSlash action) := by
  have hmorph : Connection.morph_action_hook false request_path action =
      (if startsWithSlash
          (rstripSlash (lstripSlash request_path) ++ "/" ++ lstripSlash action) then
        rstripSlash (lstripSlash request_path) ++ "/" ++ lstripSlash action
      else
        "/" ++ (rstripSlash (lstripSlash request_path) ++ "/" ++ lstripSlash action)) := rfl
  refine ⟨rfl, ?_⟩
  rw [hmorph]
  by_cases hX' : rstripSlash (lstripSlash request_path) = ""
  · rw [if_pos hX', hX']
    have he : ("" : String) ++ "/" ++ lstripSlash action = "/" ++ lstripSlash action := rfl
    rw [he]
    have hsw : startsWithSlash ("/" ++ lstripSlash action) = true := rfl
    simp [hsw]
  · rw [if_neg hX']
    obtain ⟨c, t, hct⟩ : ∃ c t, (rstripSlash (lstripSlash request_path)).data = c :: t := by
      rcases hd : (rstripSlash (lstripSlash request_path)).data with _ | ⟨c, t⟩
      · exact absurd (String.ext (by simp [hd])) hX'
      · exact ⟨c, t, rfl⟩
    have hc : c ≠ '/' := rstripSlash_head_ne request_path c t hct
    have hsw : startsWithSlash
        (rstripSlash (lstripSlash request_path) ++ "/" ++ lstripSlash action) = false := by
      have hdata : (rstripSlash (lstripSlash request_path) ++ "/" ++ lstripSlash action).data
          = c :: ((t ++ ['/']) ++ (lstripSlash action).data) := by
        simp [String.data_append, hct]
      simp [startsWithSlash, hdata, hc]
    rw [hsw]
    simp [string_append_assoc]

/-- Witness for `morph_action_hook_normalizes` on a concrete prefix and an
action with an internal doubled slash. -/
theorem morph_action_hook_normalizes_witness :
    Connection.morph_action_hook true "/base/" "/a//b.txt" = "/base//a//b.txt" ∧
    Connection.morph_action_hook false "/base/" "/a//b.txt" = "/base/a//b.txt" := by
  have h := morph_action_hook_normalizes "/base/" "/a//b.txt" (by decide) (by decide)
  refine ⟨h.1, ?_⟩
  rw [h.2]
  decide

/-- Witness for `zero_length_body_policy` at the empty body with a parser
that rejects empty input. -/
theorem zero_length_body_policy_witness :
    (JsonResponse.parse_body (V := Unit) (fun _ => .exc false) false "" =
      (.ok (.inl ""), false)) ∧
    ((JsonResponse.parse_body (V := Unit) (fun _ => .exc false) true "").2 = true) ∧
    (XmlResponse.parse_body (V := Unit) (fun _ => .exc true) (fun _ => .exc false) false "" =
      (.ok (.inl ""), false)) ∧
    ((XmlResponse.parse_body (V := Unit) (fun _ => .exc true) (fun _ => .exc false) true "").2 = true) :=
  zero_length_body_policy (fun _ => .exc false) (fun _ => .exc true)
    (fun _ => .exc false) "" rfl

/-- Hex digits are never a question mark. -/
lemma hexDigit_ne_qmark (n : Nat) : hexDigit n ≠ '?' := by
  unfold hexDigit
  by_cases h : n < 16
  · interval_cases n <;> decide
  · rw [List.getD_eq_default]
    · decide
    · simpa using Nat.le_of_not_lt h

/-- A percent-escape contains no question mark. -/
lemma count_qmark_percentEncodeByte (b : Nat) :
    (percentEncodeByte b).count '?' = 0 := by
  have h1 := hexDigit_ne_qmark (b / 16)
  have h2 := hexDigit_ne_qmark (b % 16)
  simp [percentEncodeByte, List.count_cons, h1, h2, Ne.symm h1, Ne.symm h2]

/-- `quote_plus` never emits a question mark for any single character. -/
lemma count_qmark_quotePlusChars (c : Char) :
    (quotePlusChars c).count '?' = 0 := by
  unfold quotePlusChars
  by_cases hs : quoteSafe c = true
  · have hc : c ≠ '?' := by
      intro h
      rw [h] at hs
      exact absurd hs (by decide)
    simp [hs, List.count_cons, Ne.symm hc]
  · by_cases hsp : (c == ' ') = true
    · simp [hs, hsp]
    · simp only [hs, hsp, if_false, Bool.false_eq_true]
      induction utf8Bytes c with
      | nil => simp
      | cons b bs ih => simp [List.count_append, ih, count_qmark_percentEncodeByte]

/-- `quote_plus` output contains no question mark. -/
lemma count_qmark_quote_plus (s : String) : (quote_plus s).data.count '?' = 0 := by
  show ((s.data.map quotePlusChars).flatten).count '?' = 0
  induction s.data with
  | nil => simp
  | cons c cs ih => simp [List.count_append, count_qmark_quotePlusChars c, ih]

/-- One encoded `key=value` pair contains no question mark. -/
lemma count_qmark_pair (k v : String) :
    (quote_plus k ++ "=" ++ quote_plus v).data.count '?' = 0 := by
  have h1 := count_qmark_quote_plus k
  have h2 := count_qmark_quote_plus v
  simp [String.data_append, List.count_append, h1, h2]

/-- Joining `?`-free strings with `&` stays `?`-free. -/
lemma count_qmark_pyJoin (l : List String) (h : ∀ x ∈ l, x.data.count '?' = 0) :
    (pyJoin "&" l).data.count '?' = 0 := by
  induction l with
  | nil => simp [pyJoin]
  | cons x xs ih =>
      cases xs with
      | nil => simpa [pyJoin] using h x (by simp)
      | cons y ys =>
          rw [pyJoin]
          have hx := h x (by simp)
          have hrest : ∀ z ∈ y :: ys, z.data.count '?' = 0 := by
            intro z hz
            exact h z (by simp [hz])
          have := ih hrest
          simp [String.data_append, List.count_append, hx, this]

/-- The encoded query string contains no question mark. -/
lemma count_qmark_urlencode (params : Dict) :
    (urlencode params).data.count '?' = 0 := by
  apply count_qmark_pyJoin
  intro x hx
  rcases List.mem_map.1 hx with ⟨kv, _, rfl⟩
  exact count_qmark_pair kv.1 kv.2

/-- C8: with at least one query parameter and an action containing no
`?`, the built URL is the action, one `?`, and the encoded query (exactly
one `?` in total); with an action already containing `?` the separator is
`&`; with no parameters the URL is the action unchanged. -/
theorem request_url_query_separator (action : String) (params : Dict) :
    (params = [] → Connection.buildUrl action params = action) ∧
    (params ≠ [] → containsQmark action = false →
      Connection.buildUrl action params = action ++ "?" ++ urlencode params ∧
      countQ (Connection.buildUrl action params) = 1) ∧
    (params ≠ [] → containsQmark action = true →
      Connection.buildUrl action params = action ++ "&" ++ urlencode params) := by
  refine ⟨?_, ?_, ?_⟩
  · intro h
    simp [Connection.buildUrl, h]
  · intro hne hq
    have hnemp : params.isEmpty = false := by
      cases params with
      | nil => exact absurd rfl hne
      | cons a l => rfl
    have hurl : Connection.buildUrl action params =
        action ++ "?" ++ urlencode params := by
      simp [Connection.buildUrl, hnemp, hq]
    refine ⟨hurl, ?_⟩
    have hact : action.data.count '?' = 0 := by
      rw [List.count_eq_zero]
      intro hmem
      rw [← List.elem_iff] at hmem
      simp [containsQmark, List.contains] at hq
      exact absurd hmem (by simp [hq])
    rw [hurl]
    simp [countQ, String.data_append, List.count_append, hact,
      count_qmark_urlencode]
  · intro hne hq
    have hnemp : params.isEmpty = false := by
      cases params with
      | nil => exact absurd rfl hne
      | cons a l => rfl
    simp [Connection.buildUrl, hnemp, hq]

/-- Witness for `request_url_query_separator` on concrete actions and
params, covering all three cases. -/
theorem request_url_query_separator_witness :
    (Connection.buildUrl "/path" [("a b", "c?d")] =
        "/path" ++ "?" ++ urlencode [("a b", "c?d")] ∧
      countQ (Connection.buildUrl "/path" [("a b", "c?d")]) = 1) ∧
    Connection.buildUrl "/p?x=1" [("a", "b")] =
      "/p?x=1" ++ "&" ++ urlencode [("a", "b")] ∧
    Connection.buildUrl "/path" [] = "/path" :=
  ⟨(request_url_query_separator "/path" [("a b", "c?d")]).2.1
      (by decide) (by decide),
   (request_url_query_separator "/p?x=1" [("a", "b")]).2.2
      (by decide) (by decide),
   (request_url_query_separator "/path" []).1 rfl⟩

/-- The per-call mutable context dictionary (`Connection.context`). -/
abbrev Context := Dict

/-- `Connection.reset_context`: set the context to an empty dict. -/
def Connection.reset_context : Context := []

/-- Outcome of the transport send inside `_retryable_request`
(`self.connection.request` / `prepared_request`). -/
inductive TransportOutcome where
  | ok
  | gaierror (errno : Option Int) (msg : String)
  | sslError (msg : String)
  deriving Repr, DecidableEq

/-- Exceptions that `_retryable_request` can propagate to its caller. -/
inductive RequestError where
  | gaierror (msg : String)
  | sslError (msg : String)
  | responseError (e : DomainError)
  deriving Repr, DecidableEq

/-- The friendlier message built for a "no address associated with
hostname" resolution failure (errno -5). -/
def friendlyDnsMessage (message class_name host : String) : String :=
  message ++ ". Perhaps \"host\" Connection class attribute (" ++ class_name ++
    ".connection) is set to an invalid, non-hostname value (" ++ host ++ ")?"

/-- `Connection._retryable_request`: perform the transport send; on
`socket.gaierror` with errno -5 re-raise with the friendlier message, on
other `gaierror`s and on `ssl.SSLError` reset the context and re-raise;
on a completed send construct the response (which may itself raise) and
reset the context in a `finally`.  The function returns the Python-level
result paired with the context the connection holds afterwards. -/
def Connection.retryable_request {R : Type} (class_name host : String)
    (context : Context) (transport : TransportOutcome)
    (getresponse : Except DomainError R) :
    Except RequestError R × Context :=
  match transport with
  | .gaierror errno msg =>
      if errno = some (-5) then
        (.error (.gaierror (friendlyDnsMessage msg class_name host)), context)
      else
        (.error (.gaierror msg), Connection.reset_context)
  | .sslError msg => (.error (.sslError msg), Connection.reset_context)
  | .ok =>
      match getresponse with
      | .ok r => (.ok r, Connection.reset_context)
      | .error e => (.error (.responseError e), Connection.reset_context)

/-- C1: at the failing input — a name-resolution failure whose errno is -5
("no address associated with hostname") — `_retryable_request` re-raises
the friendlier `gaierror` WITHOUT resetting the per-call context, while
every other exit path (other resolution failures, TLS failures,
response-construction errors, normal returns) does reset it. -/
theorem retryable_request_context_reset_bug :
    ((Connection.retryable_request (R := Unit) "NodeConnection" "example.invalid"
        [("k", "v")] (.gaierror (some (-5)) "no address associated with hostname")
        (.ok ())).2 = [("k", "v")] ∧
      (Connection.retryable_request (R := Unit) "NodeConnection" "example.invalid"
        [("k", "v")] (.gaierror (some (-5)) "no address associated with hostname")
        (.ok ())).2 ≠ Connection.reset_context) ∧
    (Connection.retryable_request (R := Unit) "C" "h" [("k", "v")]
      (.gaierror none "fail") (.ok ())).2 = Connection.reset_context ∧
    (Connection.retryable_request (R := Unit) "C" "h" [("k", "v")]
      (.sslError "tls fail") (.ok ())).2 = Connection.reset_context ∧
    (Connection.retryable_request (R := Unit) "C" "h" [("k", "v")]
      .ok (.ok ())).2 = Connection.reset_context ∧
    (Connection.retryable_request (R := Unit) "C" "h" [("k", "v")]
      .ok (.error ⟨500, "boom", []⟩)).2 = Connection.reset_context := by
  decide

/-- The retry-enablement decision at the top of `Connection.request`:
`os.environ.get("LIBCLOUD_RETRY_FAILED_HTTP_REQUESTS", False)` is a string
when the variable is set (Python-truthy iff non-empty), or-ed with the
module flag `RETRY_FAILED_HTTP_REQUESTS`; a non-None `retry_failed`
method argument overrides both. -/
def Connection.retryEnabled (retry_failed : Option Bool)
    (env_value : Option String) (module_flag : Bool) : Bool :=
  let retry_enabled := (match env_value with
    | some s => s != ""
    | none => false) || module_flag
  match retry_failed with
  | some b => b
  | none => retry_enabled

/-- The tail of `Connection.request`: `request_to_be_executed` is
`_retryable_request`, rebound to the Retry-coordinator-wrapped version iff
retry is enabled, then invoked.  The exchange is a state transformer (the
state counts transport sends); the Retry coordinator itself is abstract. -/
def Connection.executeExchange {R : Type} (retry_enabled : Bool)
    (retryWrap : (Nat → R × Nat) → Nat → R × Nat)
    (retryable_request : Nat → R × Nat) (calls : Nat) : R × Nat :=
  let request_to_be_executed := retryable_request
  let request_to_be_executed :=
    if retry_enabled then retryWrap retryable_request
    else request_to_be_executed
  request_to_be_executed calls

/-- C7: retry wrapping precedence — a non-None per-call `retry_failed`
argument overrides everything; otherwise retry is enabled exactly when the
environment toggle is set (to a non-empty string) or the module flag is
set; and when retry is not enabled, the transport exchange runs exactly
once, directly, not through the Retry coordinator. -/
theorem request_retry_precedence {R : Type}
    (retryWrap : (Nat → R × Nat) → Nat → R × Nat) (response : R) :
    (∀ b env flag, Connection.retryEnabled (some b) env flag = b) ∧
    (∀ s flag, Connection.retryEnabled none (some s) flag = ((s != "") || flag)) ∧
    (∀ flag, Connection.retryEnabled none none flag = flag) ∧
    (∀ exchange calls,
      Connection.executeExchange false retryWrap exchange calls = exchange calls) ∧
    (∀ calls, (Connection.executeExchange false retryWrap
      (fun n => (response, n + 1)) calls).2 = calls + 1) := by
  refine ⟨fun b env flag => rfl, fun s flag => rfl, fun flag => by
    simp [Connection.retryEnabled], fun exchange calls => rfl, fun calls => rfl⟩

/-- The still-open transport connection a `RawResponse` reads from;
`getresponse()` retrieves body and reason from it. -/
structure TransportConn where
  bodyVal : String
  reasonVal : String
  deriving Repr, DecidableEq

/-- Modelled from the spec: `HttpLibResponseProxy` (from `libcloud.http`,
not under `src/`) wraps the fetched transport response; "the body and
reason string are fetched from the still-open transport response the
first time the caller reads them, and cached after first access". -/
structure HttpLibResponseProxy where
  body : String
  reason : String
  deriving Repr, DecidableEq

/-- The mutable state of a `RawResponse`: `_response` (the cached proxy),
`_reason` (the cached reason string), plus a count of `getresponse()`
fetches performed on the still-open transport connection. -/
structure RawResponseState where
  responseCache : Option HttpLibResponseProxy
  reasonCache : Option String
  fetches : Nat
  deriving Repr, DecidableEq

/-- The fresh state right after `RawResponse.__init__` (`_response = None`,
`_reason = None`, nothing fetched yet). -/
def RawResponse.initState : RawResponseState :=
  { responseCache := none, reasonCache := none, fetches := 0 }

/-- The `RawResponse.response` property: fetch via
`self.connection.connection.getresponse()` and cache the proxy on first
access, return the cached proxy afterwards.  (The failure-path
`parse_error()` call inside it reads `self.body`, which goes through this
same cache and performs no extra fetch.) -/
def RawResponse.response (conn : TransportConn) (st : RawResponseState) :
    HttpLibResponseProxy × RawResponseState :=
  match st.responseCache with
  | some p => (p, st)
  | none =>
      let p : HttpLibResponseProxy := ⟨conn.bodyVal, conn.reasonVal⟩
      (p, { st with responseCache := some p, fetches := st.fetches + 1 })

/-- The `RawResponse.body` property: `self.response.body`. -/
def RawResponse.body (conn : TransportConn) (st : RawResponseState) :
    String × RawResponseState :=
  let pr := RawResponse.response conn st
  (pr.1.body, pr.2)

/-- The `RawResponse.reason` property: cached in `_reason` after the first
read of `self.response.reason`. -/
def RawResponse.reason (conn : TransportConn) (st : RawResponseState) :
    String × RawResponseState :=
  match st.reasonCache with
  | some r => (r, st)
  | none =>
      let pr := RawResponse.response conn st
      (pr.1.reason, { pr.2 with reasonCache := some pr.1.reason })

/-- C5: reading the lazy body twice returns the identical cached value and
fetches from the still-open transport response exactly once; the fetch
happens on the first access of `body` or `reason`, and later accesses do
not fetch again. -/
theorem raw_response_lazy_body_idempotent (conn : TransportConn) :
    (let r1 := RawResponse.body conn RawResponse.initState
     let r2 := RawResponse.body conn r1.2
     r1.1 = r2.1 ∧ r1.1 = conn.bodyVal ∧
       r1.2.fetches = 1 ∧ r2.2.fetches = 1) ∧
    (let q1 := RawResponse.reason conn RawResponse.initState
     let q2 := RawResponse.body conn q1.2
     q1.1 = conn.reasonVal ∧ q1.2.fetches = 1 ∧
       q2.2.fetches = 1 ∧ q2.1 = conn.bodyVal) := by
  exact ⟨⟨rfl, rfl, rfl, rfl⟩, ⟨rfl, rfl, rfl, rfl⟩⟩

/-- Outcome of `async_request`: the returned response, the
`LibcloudError("Job did not complete in %s seconds")` timeout, or (model
artefact) exhausted recursion fuel — unreachable with the fuel
`async_request` supplies whenever the poll interval is positive. -/
inductive AsyncOutcome (R : Type) where
  | success (r : R)
  | jobTimeout (timeout : Nat)
  | fuelOut
  deriving Repr, DecidableEq

/-- The observable trace of one `async_request` run: the outcome, the
number of poll requests issued inside the loop, the responses
`has_completed` was evaluated on (in order), and the model clock when the
loop finished. -/
structure AsyncTrace (R : Type) where
  outcome : AsyncOutcome R
  polls : Nat
  checked : List R
  clock : Nat
  deriving Repr, DecidableEq

/-- The polling loop of `PollingConnection.async_request`:
`while time.time() < end and not completed:` with `end = start + timeout`.
The model clock starts at 0 (so `end = timeout`) and advances only at
`time.sleep(self.poll_interval)`; `pollResponse i` is the response of the
`i`-th poll request (`request(**kwargs)`), `has_completed` the
provider-supplied completion predicate.  `fuel` only bounds recursion
depth; `t` is the clock, `i` the poll index, `acc` the reversed list of
responses checked so far. -/
def PollingConnection.pollLoop {R : Type} (pollResponse : Nat → R)
    (has_completed : R → Bool) (poll_interval timeout : Nat) :
    Nat → Nat → Nat → List R → AsyncTrace R
  | fuel, t, i, acc =>
    if t < timeout then
      match fuel with
      | 0 => ⟨.fuelOut, i, acc.reverse, t⟩
      | fuel + 1 =>
          let response := pollResponse i
          if has_completed response then
            ⟨.success response, i + 1, (response :: acc).reverse, t⟩
          else
            PollingConnection.pollLoop pollResponse has_completed
              poll_interval timeout fuel (t + poll_interval) (i + 1)
              (response :: acc)
    else
      ⟨.jobTimeout timeout, i, acc.reverse, t⟩

/-- `PollingConnection.async_request`: issue the initiating request
(`initResponse`), derive the poll kwargs from it, then run the polling
loop; if it finishes without completion, raise the job-timeout error;
otherwise return the last poll response.  The supplied fuel `timeout + 1`
covers every reachable iteration when `poll_interval > 0`. -/
def PollingConnection.async_request {R : Type} (_initResponse : R)
    (pollResponse : Nat → R) (has_completed : R → Bool)
    (poll_interval timeout : Nat) : AsyncTrace R :=
  PollingConnection.pollLoop pollResponse has_completed poll_interval timeout
    (timeout + 1) 0 0 []

/-- Auxiliary success-path characterization of the polling loop: if the
completion predicate is false for polls `k, k+1, …, N-1` and true at poll
`N`, and the budget admits the checks, the loop returns poll response `N`
after `N + 1` polls at clock `N * poll_interval`. -/
lemma pollLoop_success_aux {R : Type} (pr : Nat → R) (hc : R → Bool)
    (ival timeout N : Nat)
    (hfalse : ∀ i, i < N → hc (pr i) = false) (htrue : hc (pr N) = true)
    (hbudget : N * ival < timeout) :
    ∀ fuel k acc, k ≤ N → N - k < fuel →
      PollingConnection.pollLoop pr hc ival timeout fuel (k * ival) k acc =
        ⟨.success (pr N), N + 1,
          acc.reverse ++ (List.range' k (N + 1 - k)).map pr, N * ival⟩ := by
  intro fuel
  induction fuel with
  | zero => intro k acc _ hf; omega
  | succ fuel ih =>
      intro k acc hk hf
      have ht : k * ival < timeout :=
        Nat.lt_of_le_of_lt (Nat.mul_le_mul_right ival hk) hbudget
      rw [PollingConnection.pollLoop]
      rw [if_pos ht]
      by_cases hkN : k = N
      · subst hkN
        simp only [htrue, if_pos]
        have hrange : List.range' k (k + 1 - k) = [k] := by
          have : k + 1 - k = 1 := by omega
          rw [this, List.range'_one]
        rw [hrange]
        simp
      · have hklt : k < N := lt_of_le_of_ne hk hkN
        have hfk : hc (pr k) = false := hfalse k hklt
        simp only [hfk, Bool.false_eq_true, if_false]
        have hstep : k * ival + ival = (k + 1) * ival := by ring
        rw [hstep]
        rw [ih (k + 1) (pr k :: acc) hklt (by omega)]
        have hrange : List.range' k (N + 1 - k) =
            k :: List.range' (k + 1) (N + 1 - (k + 1)) := by
          have h1 : N + 1 - k = (N - k) + 1 := by omega
          have h2 : N + 1 - (k + 1) = N - k := by omega
          rw [h1, h2, List.range'_succ]
        rw [hrange]
        simp

/-- Auxiliary timeout-path characterization of the polling loop: if the
completion predicate never holds and the poll interval is positive, the
loop ends in the job-timeout error at a clock less than
`timeout + poll_interval`, having issued one poll per elapsed interval. -/
lemma pollLoop_timeout_aux {R : Type} (pr : Nat → R) (hc : R → Bool)
    (ival timeout : Nat)
    (hnever : ∀ i, hc (pr i) = false) :
    ∀ fuel t i acc, t < timeout + ival → timeout ≤ t + fuel * ival →
      (PollingConnection.pollLoop pr hc ival timeout fuel t i acc).outcome =
          .jobTimeout timeout ∧
        (PollingConnection.pollLoop pr hc ival timeout fuel t i acc).clock <
          timeout + ival := by
  intro fuel
  induction fuel with
  | zero =>
      intro t i acc hlt hle
      have : ¬ t < timeout := by omega
      rw [PollingConnection.pollLoop, if_neg this]
      exact ⟨rfl, by simpa using hlt⟩
  | succ fuel ih =>
      intro t i acc hlt hle
      by_cases ht : t < timeout
      · rw [PollingConnection.pollLoop, if_pos ht]
        simp only [hnever (i), Bool.false_eq_true, if_false]
        exact ih (t + ival) (i + 1) (pr i :: acc) (by omega)
          (by rw [Nat.succ_mul] at hle; omega)
      · rw [PollingConnection.pollLoop, if_neg ht]
        exact ⟨rfl, by simpa using hlt⟩

/-- C4 counterexample: with poll interval 1 and timeout 1, the completion
predicate is false on the first poll and would be true on the second
(N = 1), yet `async_request` raises the job-timeout error instead of
returning the second poll response — the claim needs the N polls to fit
within the timeout budget. -/
theorem async_request_counterexample :
    ((fun r => decide (1 ≤ r)) ((fun (i : Nat) => i) 0) = false) ∧
    ((fun r => decide (1 ≤ r)) ((fun (i : Nat) => i) 1) = true) ∧
    (PollingConnection.async_request (R := Nat) 0 (fun i => i)
        (fun r => decide (1 ≤ r)) 1 1).outcome = .jobTimeout 1 := by
  decide

/-- C4 (amended): provided the N unsuccessful polls fit within the timeout
budget (`N * poll_interval < timeout`, positive interval), a predicate
false on the first N polls and true on the (N+1)-th makes `async_request`
return the (N+1)-th poll response after exactly N+1 polls; a predicate
that never holds makes it raise the job-timeout error — directly, not
through any retry — no later than `timeout` after the loop starts, within
the granularity of one poll interval. -/
theorem async_request_poll_semantics {R : Type} (initR : R) (pr : Nat → R)
    (hc : R → Bool) (ival timeout N : Nat) :
    ((∀ i, i < N → hc (pr i) = false) → hc (pr N) = true → 0 < ival →
      N * ival < timeout →
      PollingConnection.async_request initR pr hc ival timeout =
        ⟨.success (pr N), N + 1, (List.range (N + 1)).map pr, N * ival⟩) ∧
    ((∀ i, hc (pr i) = false) → 0 < ival →
      (PollingConnection.async_request initR pr hc ival timeout).outcome =
          .jobTimeout timeout ∧
        (PollingConnection.async_request initR pr hc ival timeout).clock <
          timeout + ival) := by
  constructor
  · intro hfalse htrue hival hbudget
    have hN : N ≤ N * ival := by
      calc N = N * 1 := (Nat.mul_one N).symm
        _ ≤ N * ival := Nat.mul_le_mul_left N hival
    have h := pollLoop_success_aux pr hc ival timeout N hfalse htrue hbudget
      (timeout + 1) 0 [] (Nat.zero_le N) (by omega)
    rw [Nat.zero_mul] at h
    rw [PollingConnection.async_request, h]
    simp [List.range_eq_range']
  · intro hnever hival
    have hfuel : timeout ≤ 0 + (timeout + 1) * ival := by
      have : timeout + 1 ≤ (timeout + 1) * ival := by
        calc timeout + 1 = (timeout + 1) * 1 := (Nat.mul_one _).symm
          _ ≤ (timeout + 1) * ival := Nat.mul_le_mul_left _ hival
      omega
    exact pollLoop_timeout_aux pr hc ival timeout hnever (timeout + 1) 0 0 []
      (by omega) hfuel

/-- Witness for `async_request_poll_semantics`: N = 1 with budget 5
returns the second poll response; a never-true predicate with timeout 5
and interval 1 times out before clock 6. -/
theorem async_request_poll_semantics_witness :
    PollingConnection.async_request (R := Nat) 0 (fun i => i)
        (fun r => decide (1 ≤ r)) 1 5 =
      ⟨.success 1, 2, [0, 1], 1⟩ ∧
    ((PollingConnection.async_request (R := Nat) 0 (fun i => i)
        (fun _ => false) 1 5).outcome = .jobTimeout 5 ∧
      (PollingConnection.async_request (R := Nat) 0 (fun i => i)
        (fun _ => false) 1 5).clock < 5 + 1) :=
  ⟨(async_request_poll_semantics 0 (fun i => i) (fun r => decide (1 ≤ r)) 1 5 1).1
      (by intro i hi; have h0 : i = 0 := by omega
          subst h0; decide)
      (by decide) (by decide) (by decide),
   (async_request_poll_semantics 0 (fun i => i) (fun _ => false) 1 5 1).2
      (fun _ => rfl) (by decide)⟩

/-- Trace-shape invariant of the polling loop: starting at poll index `k`
with the first `k` poll responses already checked, the final poll count is
at least `k` (strictly greater when the loop body can run), the checked
responses are exactly the poll responses in order, and a successful
outcome returns the last poll response. -/
lemma pollLoop_trace_shape {R : Type} (pr : Nat → R) (hc : R → Bool)
    (ival timeout : Nat) :
    ∀ fuel t k acc, acc.reverse = (List.range k).map pr →
      k ≤ (PollingConnection.pollLoop pr hc ival timeout fuel t k acc).polls ∧
      (PollingConnection.pollLoop pr hc ival timeout fuel t k acc).checked =
        (List.range
          (PollingConnection.pollLoop pr hc ival timeout fuel t k acc).polls).map pr ∧
      (∀ r, (PollingConnection.pollLoop pr hc ival timeout fuel t k acc).outcome =
          .success r →
        r = pr ((PollingConnection.pollLoop pr hc ival timeout fuel t k acc).polls - 1)) ∧
      (t < timeout → 0 < fuel →
        k < (PollingConnection.pollLoop pr hc ival timeout fuel t k acc).polls) := by
  intro fuel
  induction fuel with
  | zero =>
      intro t k acc hacc
      rw [PollingConnection.pollLoop]
      by_cases ht : t < timeout
      · rw [if_pos ht]
        refine ⟨le_refl k, by simpa using hacc, ?_, ?_⟩
        · intro r h
          simp at h
        · intro _ h
          exact absurd h (by decide)
      · rw [if_neg ht]
        refine ⟨le_refl k, by simpa using hacc, ?_, ?_⟩
        · intro r h
          simp at h
        · intro h _
          exact absurd h ht
  | succ fuel ih =>
      intro t k acc hacc
      rw [PollingConnection.pollLoop]
      by_cases ht : t < timeout
      · rw [if_pos ht]
        by_cases hcp : hc (pr k) = true
        · simp only [hcp, if_true]
          refine ⟨Nat.le_succ k, ?_, ?_, fun _ _ => Nat.lt_succ_self k⟩
          · simp [List.range_succ, hacc]
          · intro r h
            injection h with h'
            subst h'
            simp
        · simp only [hcp, Bool.false_eq_true, if_false]
          have hacc' : (pr k :: acc).reverse = (List.range (k + 1)).map pr := by
            simp [List.range_succ, hacc]
          obtain ⟨h1, h2, h3, _⟩ := ih (t + ival) (k + 1) (pr k :: acc) hacc'
          exact ⟨Nat.le_of_succ_le h1, h2, h3, fun _ _ => Nat.lt_of_succ_le h1⟩
      · rw [if_neg ht]
        refine ⟨le_refl k, by simpa using hacc, ?_, ?_⟩
        · intro r h
          simp at h
        · intro h _
          exact absurd h ht

/-- C10: with a positive timeout, `async_request` always issues at least
one poll request after the initiating request; the completion predicate is
evaluated exactly on the poll responses (never on the initiating
response), and a successful run returns the last poll response — never the
initiating one. -/
theorem async_request_always_polls {R : Type} (initR : R) (pr : Nat → R)
    (hc : R → Bool) (ival timeout : Nat) (htimeout : 0 < timeout) :
    1 ≤ (PollingConnection.async_request initR pr hc ival timeout).polls ∧
    (PollingConnection.async_request initR pr hc ival timeout).checked =
      (List.range
        (PollingConnection.async_request initR pr hc ival timeout).polls).map pr ∧
    ∀ r, (PollingConnection.async_request initR pr hc ival timeout).outcome =
        AsyncOutcome.success r →
      r = pr ((PollingConnection.async_request initR pr hc ival timeout).polls - 1) := by
  obtain ⟨h1, h2, h3, h4⟩ := pollLoop_trace_shape pr hc ival timeout
    (timeout + 1) 0 0 [] (by simp)
  exact ⟨h4 htimeout (Nat.succ_pos timeout), h2, h3⟩

/-- Witness for `async_request_always_polls` with a never-completing
predicate and timeout 1. -/
theorem async_request_always_polls_witness :
    1 ≤ (PollingConnection.async_request (R := Nat) 99 (fun i => i + 10)
        (fun _ => false) 1 1).polls ∧
    (PollingConnection.async_request (R := Nat) 99 (fun i => i + 10)
        (fun _ => false) 1 1).checked =
      (List.range (PollingConnection.async_request (R := Nat) 99 (fun i => i + 10)
        (fun _ => false) 1 1).polls).map (fun i => i + 10) ∧
    ∀ r, (PollingConnection.async_request (R := Nat) 99 (fun i => i + 10)
        (fun _ => false) 1 1).outcome = AsyncOutcome.success r →
      r = (PollingConnection.async_request (R := Nat) 99 (fun i => i + 10)
        (fun _ => false) 1 1).polls - 1 + 10 :=
  async_request_always_polls 99 (fun i => i + 10) (fun _ => false) 1 1 (by decide)

/-- A heap of dictionaries; a Python variable bound to a dict is an index
into the heap, so aliasing and in-place mutation are explicit. -/
abbrev DictHeap := List Dict

/-- Read the dict a reference points to. -/
def heapGet (h : DictHeap) (r : Nat) : Dict := h.getD r []

/-- Overwrite the dict a reference points to. -/
def heapSet (h : DictHeap) (r : Nat) (d : Dict) : DictHeap := h.set r d

/-- `copy.copy` on a dict: allocate a fresh cell holding the same
top-level contents, returning the new heap and the new reference. -/
def heapCopy (h : DictHeap) (r : Nat) : DictHeap × Nat :=
  (h ++ [heapGet h r], h.length)

/-- Python `dict.__setitem__` on the top level of an association list. -/
def dictSet (d : Dict) (k v : String) : Dict :=
  if d.any (fun kv => kv.1 == k) then
    d.map (fun kv => if kv.1 == k then (k, v) else kv)
  else d ++ [(k, v)]

/-- Python `dict.update` with a list of key/value pairs. -/
def dictUpdate (d : Dict) (kvs : List (String × String)) : Dict :=
  kvs.foldl (fun acc kv => dictSet acc kv.1 kv.2) d

/-- The params/headers handling of `Connection.request`: the caller's
`params` and `headers` dicts are shallow-copied (`copy.copy`) before any
hook runs; `add_default_params`, `add_default_headers`, the header
updates (`User-Agent`, `Accept-Encoding`, `Host`) and `pre_connect_hook`
all read and write the copies only.  The hooks are arbitrary functions of
the dict contents (`cache_busting` is off by default and adds nothing
here).  Returns the final heap with the references to the two copies. -/
def Connection.requestMappings (add_default_params add_default_headers : Dict → Dict)
    (pre_connect_hook : Dict → Dict → Dict × Dict) (user_agent host : String)
    (h0 : DictHeap) (paramsRef headersRef : Nat) : DictHeap × Nat × Nat :=
  let c1 := heapCopy h0 paramsRef
  let h1 := c1.1
  let pRef := c1.2
  let c2 := heapCopy h1 headersRef
  let h2 := c2.1
  let hRef := c2.2
  let h3 := heapSet h2 pRef (add_default_params (heapGet h2 pRef))
  let h4 := heapSet h3 hRef (add_default_headers (heapGet h3 hRef))
  let h5 := heapSet h4 hRef (dictUpdate (heapGet h4 hRef)
    [("User-Agent", user_agent), ("Accept-Encoding", "gzip,deflate"),
     ("Host", host)])
  let ph := pre_connect_hook (heapGet h5 pRef) (heapGet h5 hRef)
  let h6 := heapSet (heapSet h5 pRef ph.1) hRef ph.2
  (h6, pRef, hRef)

/-- Writing one cell leaves every other cell unchanged. -/
lemma heapGet_set_ne (h : DictHeap) (i r : Nat) (d : Dict) (hne : i ≠ r) :
    heapGet (heapSet h i d) r = heapGet h r := by
  simp [heapGet, heapSet, List.getD, List.getElem?_set_ne hne]

/-- Allocating at the end leaves every existing cell unchanged. -/
lemma heapGet_append_lt (h : DictHeap) (d : Dict) (r : Nat)
    (hr : r < h.length) : heapGet (h ++ [d]) r = heapGet h r := by
  simp [heapGet, List.getD, List.getElem?_append_left hr]

/-- C9: `Connection.request` leaves the caller's original `params` and
`headers` mappings unchanged at the top level — the default-params,
default-headers, header-injection and pre-connect steps all operate on the
`copy.copy`-ed dicts, whatever the hooks do. -/
theorem request_preserves_caller_mappings
    (adp adh : Dict → Dict) (pch : Dict → Dict → Dict × Dict)
    (ua host : String) (h0 : DictHeap) (paramsRef headersRef : Nat)
    (hp : paramsRef < h0.length) (hh : headersRef < h0.length) :
    heapGet (Connection.requestMappings adp adh pch ua host h0
        paramsRef headersRef).1 paramsRef = heapGet h0 paramsRef ∧
    heapGet (Connection.requestMappings adp adh pch ua host h0
        paramsRef headersRef).1 headersRef = heapGet h0 headersRef := by
  have hp1 : h0.length ≠ paramsRef := by omega
  have hh1 : h0.length ≠ headersRef := by omega
  have hp2 : (h0 ++ [heapGet h0 paramsRef]).length ≠ paramsRef := by
    simp only [List.length_append, List.length_cons, List.length_nil]
    omega
  have hh2 : (h0 ++ [heapGet h0 paramsRef]).length ≠ headersRef := by
    simp only [List.length_append, List.length_cons, List.length_nil]
    omega
  have hq1 : paramsRef < (h0 ++ [heapGet h0 paramsRef]).length := by
    simp only [List.length_append, List.length_cons, List.length_nil]
    omega
  have hq2 : headersRef < (h0 ++ [heapGet h0 paramsRef]).length := by
    simp only [List.length_append, List.length_cons, List.length_nil]
    omega
  simp only [Connection.requestMappings, heapCopy]
  constructor
  · rw [heapGet_set_ne _ _ _ _ hp2, heapGet_set_ne _ _ _ _ hp1,
      heapGet_set_ne _ _ _ _ hp2, heapGet_set_ne _ _ _ _ hp2,
      heapGet_set_ne _ _ _ _ hp1, heapGet_append_lt _ _ _ hq1,
      heapGet_append_lt _ _ _ hp]
  · rw [heapGet_set_ne _ _ _ _ hh2, heapGet_set_ne _ _ _ _ hh1,
      heapGet_set_ne _ _ _ _ hh2, heapGet_set_ne _ _ _ _ hh2,
      heapGet_set_ne _ _ _ _ hh1, heapGet_append_lt _ _ _ hq2,
      heapGet_append_lt _ _ _ hh]

/-- Witness for `request_preserves_caller_mappings`: concrete caller dicts
survive hooks that rewrite and extend their copies. -/
theorem request_preserves_caller_mappings_witness :
    heapGet (Connection.requestMappings (fun d => ("v", "1") :: d)
        (fun d => dictSet d "Auth" "tok") (fun p h => (p, ("X", "y") :: h))
        "libcloud/ua" "api.example.com"
        [[("a", "1")], [("h", "x")]] 0 1).1 0 = [("a", "1")] ∧
    heapGet (Connection.requestMappings (fun d => ("v", "1") :: d)
        (fun d => dictSet d "Auth" "tok") (fun p h => (p, ("X", "y") :: h))
        "libcloud/ua" "api.example.com"
        [[("a", "1")], [("h", "x")]] 0 1).1 1 = [("h", "x")] :=
  request_preserves_caller_mappings (fun d => ("v", "1") :: d)
    (fun d => dictSet d "Auth" "tok") (fun p h => (p, ("X", "y") :: h))
    "libcloud/ua" "api.example.com" [[("a", "1")], [("h", "x")]] 0 1
    (by decide) (by decide)
